import Mathlib

/-!
Shallow embedding of the dubai-schools-intelligence repository
(src/app.py, src/map_utils.py, src/rag_engine.py) and proofs of the
specification's claims about it.

External libraries (shapely, geopy, the TravelTime HTTP API, pandas
rendering) are modelled as function parameters or `Option`-valued
oracles; code of the repository itself is translated directly.
-/

namespace DxbSchools

/-! ## Geometry normalizer (src/map_utils.py, parse_geom / get_centroid)

`load_wkt` (shapely.wkt.loads) is external: we model it as a parameter
`loadWkt : String -> Option Geom`, where `none` stands for the parse
raising an exception.  A missing spreadsheet cell (pandas NaN) is
modelled as a `none` input string. -/

/-- An already-parsed shapely geometry: its type tag, the exterior-ring
coordinates as (x, y) pairs, and its centroid point. -/
structure Geom where
  geomType : String
  exterior : List (ℚ × ℚ)
  centroidPt : ℚ × ℚ
deriving DecidableEq

/-- Embedding of `parse_geom` (src/map_utils.py lines 9-19): returns the
exterior ring as [lon, lat] pairs; `none` when the input is missing
(`pd.isna`), when `load_wkt` raises (caught by the bare except), or when
the parsed geometry is not a Polygon (implicit `return None`). -/
def parse_geom (loadWkt : String → Option Geom) (wkt : Option String) :
    Option (List (ℚ × ℚ)) :=
  match wkt with
  | none => none
  | some s =>
    match loadWkt s with
    | none => none
    | some g =>
      if g.geomType = "Polygon" then some (g.exterior.map (fun c => (c.1, c.2)))
      else none

/-- Embedding of `get_centroid` (src/map_utils.py lines 21-27): the
[lon, lat] centroid, or `none` when `load_wkt` raises; a missing cell
makes `load_wkt` raise a TypeError, also caught, hence also `none`. -/
def get_centroid (loadWkt : String → Option Geom) (wkt : Option String) :
    Option (ℚ × ℚ) :=
  match wkt with
  | none => none
  | some s =>
    match loadWkt s with
    | none => none
    | some g => some g.centroidPt

/-! ## Isochrone fetcher (src/app.py, fetch_isochrones lines 88-138)

The TravelTime response for one tier is abstracted to
`Option (List IsoShape)`: `none` when the request failed or the response
had no results (the outer error branch), `some shapes` for a successful
response carrying that shape list. -/

/-- One point of the routing response, with named lat/lng fields. -/
structure APIPoint where
  lat : ℚ
  lng : ℚ
deriving DecidableEq

/-- One shape of the routing response: a shell and zero or more holes. -/
structure IsoShape where
  shell : List APIPoint
  holes : List (List APIPoint)
deriving DecidableEq

/-- Point conversion `[pt['lng'], pt['lat']]` (src/app.py lines 106, 113). -/
def toLonLat (p : APIPoint) : ℚ × ℚ := (p.lng, p.lat)

/-- Ring conversion and closing (src/app.py lines 106-109 and 113-115):
convert each point to [lng, lat]; if the first and last points differ,
append a duplicate of the first.  The Python indexes `ring[0]` and
`ring[-1]` with no emptiness guard, so an empty ring raises IndexError:
that error branch is `none` here. -/
def closeRing (pts : List APIPoint) : Option (List (ℚ × ℚ)) :=
  match pts.map toLonLat with
  | [] => none
  | p :: rest =>
    if (p :: rest).getLast (List.cons_ne_nil p rest) = p then some (p :: rest)
    else some ((p :: rest) ++ [p])

/-- Processing of one response shape (src/app.py lines 104-118): the
closed shell followed by its closed holes (`[shell] + holes`); `none`
when any ring is empty (the IndexError branch). -/
def processShape (s : IsoShape) : Option (List (List (ℚ × ℚ))) :=
  match closeRing s.shell with
  | none => none
  | some shell =>
    match s.holes.mapM closeRing with
    | none => none
    | some holes => some (shell :: holes)

/-- The fixed 3-color palette (src/app.py line 91). -/
def colors : List (ℕ × ℕ × ℕ) := [(0, 255, 128), (255, 255, 0), (255, 128, 0)]

/-- One output feature: the multi-polygon coordinates plus the
`drive_time` and `fill_color_*` properties (src/app.py lines 120-132). -/
structure Feature where
  coordinates : List (List (List (ℚ × ℚ)))
  drive_time : ℤ
  color : ℕ × ℕ × ℕ
deriving DecidableEq

/-- Stable descending sort, embedding `sorted(drive_times, reverse=True)`
(src/app.py line 93). -/
def sortDesc (l : List ℤ) : List ℤ := l.insertionSort (fun a b => b ≤ a)

/-- The per-tier loop body of `fetch_isochrones` (src/app.py lines 93-137),
with the enumeration index `i` made explicit.  A failed response or an
empty shape list shows an error banner and contributes nothing; a shape
with an empty ring raises IndexError, aborting the whole call (`none`). -/
def fetchLoop (getIso : ℤ → Option (List IsoShape)) :
    ℕ → List ℤ → Option (List Feature)
  | _, [] => some []
  | i, dt :: rest =>
    match getIso dt with
    | none => fetchLoop getIso (i + 1) rest
    | some shapes =>
      if shapes.isEmpty then fetchLoop getIso (i + 1) rest
      else
        match shapes.mapM processShape with
        | none => none
        | some geoms =>
          match fetchLoop getIso (i + 1) rest with
          | none => none
          | some feats =>
            some ({ coordinates := geoms, drive_time := dt,
                    color := colors.getD (i % colors.length) (0, 0, 0) } :: feats)

/-- Embedding of `fetch_isochrones(lat, lon, drive_times)` with the
response oracle abstracted: tiers are requested in descending order and
each successful tier appends one tagged feature. -/
def fetch_isochrones (getIso : ℤ → Option (List IsoShape)) (drive_times : List ℤ) :
    Option (List Feature) :=
  fetchLoop getIso 0 (sortDesc drive_times)

/-! ## Proximity filter (src/app.py lines 151-162)

A school record carries nullable coordinates (pandas `to_numeric` with
coerce gives NaN for a missing cell, and `pd.notnull` is false exactly
on NaN).  The external `geodesic(...).km` great-circle distance is a
parameter over real coordinates; when the guarded branch hands it a NaN
longitude (only latitude is guarded in the source), geopy rejects the
non-finite coordinate and no number is produced, modelled as `none`. -/

/-- A school record as seen by the filter. -/
structure School where
  sname : String
  lat : Option ℚ
  lon : Option ℚ
deriving DecidableEq

/-- Embedding of the `est_drive_time` lambda (src/app.py lines 156-159):
`geodesic(home, (Latitude, Longitude)).km * 2 if pd.notnull(Latitude)
else 999`.  Null latitude takes the sentinel branch; null longitude with
non-null latitude reaches the distance call, which fails (`none`). -/
def est_drive_time (dist : ℚ × ℚ → ℚ × ℚ → ℚ) (home : ℚ × ℚ) (s : School) :
    Option ℚ :=
  match s.lat with
  | none => some 999
  | some la =>
    match s.lon with
    | none => none
    | some lo => some (dist home (la, lo) * 2)

/-- Embedding of `max(selected_drive_times)` (src/app.py line 154). -/
def max_minutes (tiers : List ℤ) : ℤ := tiers.foldl max 0

/-- Embedding of the drive-time filter (src/app.py lines 156-160): every
row's estimate is computed (`df.apply`; a failing row aborts the whole
apply, hence `none`), then rows with estimate `<= max_minutes` are kept. -/
def filter_by_drive_time (dist : ℚ × ℚ → ℚ × ℚ → ℚ) (home : ℚ × ℚ)
    (maxM : ℤ) (schools : List School) : Option (List School) :=
  match schools.mapM (fun s => (est_drive_time dist home s).map (fun e => (s, e))) with
  | none => none
  | some withEst => some ((withEst.filter (fun p => p.2 ≤ (maxM : ℚ))).map (fun p => p.1))

/-! ## Home-coordinate selection (src/app.py lines 63-85)

The zone table lookup, centroid derivation, and the geocoding fallback.
The geocoder (geopy Nominatim inside try/except) is a parameter
returning `some (lat, lon)` on success and `none` on a missing result
or exception. -/

/-- A zone row: its `Community ` name and its WKT `geom` cell. -/
structure ZoneRow where
  zname : String
  geom : Option String
deriving DecidableEq

/-- Embedding of the home-coordinate selection (src/app.py lines 63-85):
a selected zone's centroid (swapped from [lon, lat] to [lat, lon]) when
one resolves; otherwise, only when no zone is selected, the geocoded
manual address with the fixed locality suffix. -/
def home_coords (loadWkt : String → Option Geom)
    (geocode : String → Option (ℚ × ℚ)) (df_zones : List ZoneRow)
    (selected_zone_name : String) (manual_address : String) : Option (ℚ × ℚ) :=
  if selected_zone_name ≠ "None" then
    match df_zones.find? (fun z => z.zname == selected_zone_name) with
    | none => none
    | some z =>
      match get_centroid loadWkt z.geom with
      | none => none
      | some c => some (c.2, c.1)
  else if manual_address ≠ "" then geocode (manual_address ++ ", Dubai")
  else none

/-! ## Chat context formatter (src/rag_engine.py, SchoolAgent) -/

/-- A school row as consumed by the chat components. -/
structure SchoolRow where
  rname : String
  curriculum : String
  overall_rating : String
  location : String
deriving DecidableEq

/-- The fixed column subset sent to the model (src/rag_engine.py line 61). -/
def cols_to_send : List String := ["name", "curriculum", "overall_rating", "location"]

/-- Projection of one row to the fixed column subset. -/
def projectRow (r : SchoolRow) : List String :=
  [r.rname, r.curriculum, r.overall_rating, r.location]

/-- Plain-text rendering of the projected table (`to_string(index=False)`,
src/rag_engine.py line 63), modelled as one header line plus one line
per row. -/
def renderTable (rows : List SchoolRow) : String :=
  String.intercalate "\n"
    (String.intercalate " " cols_to_send :: rows.map (fun r => String.intercalate " " (projectRow r)))

/-- The context-formatting step of `SchoolAgent.ask` (src/rag_engine.py
lines 56-63): the sentinel when `context_df` is `None` or empty,
otherwise the rendered projection. -/
def format_context (context_df : Option (List SchoolRow)) : String :=
  match context_df with
  | none => "No relevant schools found."
  | some rows =>
    if rows.isEmpty then "No relevant schools found." else renderTable rows

/-- The rows that `ask` actually embeds in the prompt: it applies no
truncation of its own (src/rag_engine.py lines 59-63). -/
def ask_context_rows (context_df : Option (List SchoolRow)) : List SchoolRow :=
  match context_df with
  | none => []
  | some rows => rows

/-- The orchestration layer passes `filtered_df.head(20)` to `ask`
(src/app.py line 220). -/
def orchestrated_context_rows (filtered_df : List SchoolRow) : List SchoolRow :=
  ask_context_rows (some (filtered_df.take 20))

/-- A filterable column of the school table, as used by `search_schools`. -/
inductive ColKey
  | cname
  | curriculum
  | overall_rating
  | location
deriving DecidableEq

/-- Column access for the dynamic filter dictionary. -/
def getCol : ColKey → SchoolRow → String
  | .cname, r => r.rname
  | .curriculum, r => r.curriculum
  | .overall_rating, r => r.overall_rating
  | .location, r => r.location

/-- A filter value: a scalar (`==`) or a list (`isin`). -/
inductive FilterVal
  | single (v : String)
  | multi (vs : List String)
deriving DecidableEq

/-- One step of the filter loop of `search_schools` (src/rag_engine.py
lines 44-50). -/
def applyFilter (df : List SchoolRow) (col : ColKey) (v : FilterVal) : List SchoolRow :=
  match v with
  | .single s => df.filter (fun r => getCol col r == s)
  | .multi vs => df.filter (fun r => vs.contains (getCol col r))

/-- Embedding of `SchoolAgent.search_schools` (src/rag_engine.py lines
38-54): apply each filter in turn, then `head(10)`. -/
def search_schools (df : List SchoolRow) (filters : List (ColKey × FilterVal)) :
    List SchoolRow :=
  (filters.foldl (fun acc p => applyFilter acc p.1 p.2) df).take 10

/-! ## Claims -/

/-- C6: for every input WKT string that is missing or fails to parse,
both `parse_geom` and `get_centroid` return null and (being total
functions here) never raise. -/
theorem c6_null_on_parse_failure (loadWkt : String → Option Geom)
    (wkt : Option String)
    (h : wkt = none ∨ ∀ s, wkt = some s → loadWkt s = none) :
    parse_geom loadWkt wkt = none ∧ get_centroid loadWkt wkt = none := by
  rcases h with h | h
  · subst h; exact ⟨rfl, rfl⟩
  · cases wkt with
    | none => exact ⟨rfl, rfl⟩
    | some s => simp [parse_geom, get_centroid, h s rfl]

/-- Witness for C6 at a concrete unparseable input. -/
theorem c6_null_on_parse_failure_witness :
    parse_geom (fun _ => none) (some "POLYGON((0 0, 1") = none ∧
    get_centroid (fun _ => none) (some "POLYGON((0 0, 1") = none :=
  c6_null_on_parse_failure (fun _ => none) (some "POLYGON((0 0, 1")
    (Or.inr (fun _ _ => rfl))

/-- C8: when the context dataset is absent or empty, the formatted
context string is exactly the sentinel. -/
theorem c8_empty_context_sentinel (context_df : Option (List SchoolRow))
    (h : context_df = none ∨ context_df = some []) :
    format_context context_df = "No relevant schools found." := by
  rcases h with h | h <;> subst h <;> rfl

/-- Witness for C8 at the absent dataset. -/
theorem c8_empty_context_sentinel_witness :
    format_context none = "No relevant schools found." :=
  c8_empty_context_sentinel none (Or.inl rfl)

/-- C2: the orchestration layer hands `ask` the first 20 rows of the
filtered dataset and `ask` adds no truncation of its own, so on a 25-row
input the produced context reflects exactly 20 rows; the formatter's own
search tool is capped at 10 rows. -/
theorem c2_context_row_caps (filtered_df : List SchoolRow)
    (h : filtered_df.length = 25) :
    orchestrated_context_rows filtered_df = filtered_df.take 20 ∧
    (orchestrated_context_rows filtered_df).length = 20 ∧
    ∀ (df : List SchoolRow) (filters : List (ColKey × FilterVal)),
      (search_schools df filters).length ≤ 10 := by
  refine ⟨rfl, ?_, ?_⟩
  · simp [orchestrated_context_rows, ask_context_rows, h]
  · intro df filters
    simp only [search_schools, List.length_take]
    omega

/-- Witness for C2 on a concrete 25-row dataset. -/
theorem c2_context_row_caps_witness :
    orchestrated_context_rows (List.replicate 25 (SchoolRow.mk "a" "b" "c" "d")) =
      (List.replicate 25 (SchoolRow.mk "a" "b" "c" "d")).take 20 ∧
    (orchestrated_context_rows (List.replicate 25 (SchoolRow.mk "a" "b" "c" "d"))).length = 20 ∧
    ∀ (df : List SchoolRow) (filters : List (ColKey × FilterVal)),
      (search_schools df filters).length ≤ 10 :=
  c2_context_row_caps (List.replicate 25 (SchoolRow.mk "a" "b" "c" "d")) (by simp)

/-- C5: the estimate is great-circle distance times 2 and a school is
kept exactly when the estimate is at most `max_minutes`: at distance
10 km the estimate is 20 minutes, included for 20, excluded for 19. -/
theorem c5_estimate_threshold (dist : ℚ × ℚ → ℚ × ℚ → ℚ) (home : ℚ × ℚ)
    (s : School) (la lo : ℚ) (hla : s.lat = some la) (hlo : s.lon = some lo)
    (hd : dist home (la, lo) = 10) :
    est_drive_time dist home s = some 20 ∧
    filter_by_drive_time dist home 20 [s] = some [s] ∧
    filter_by_drive_time dist home 19 [s] = some [] := by
  have hest : est_drive_time dist home s = some 20 := by
    simp [est_drive_time, hla, hlo, hd]
    norm_num
  refine ⟨hest, ?_, ?_⟩
  · simp [filter_by_drive_time, List.mapM, List.mapM.loop, hest]
  · simp [filter_by_drive_time, List.mapM, List.mapM.loop, hest]
    norm_num

/-- Witness for C5 at a concrete school and distance function. -/
theorem c5_estimate_threshold_witness :
    est_drive_time (fun _ _ => 10) (25, 55) (School.mk "s" (some 25) (some 55)) = some 20 ∧
    filter_by_drive_time (fun _ _ => 10) (25, 55) 20 [School.mk "s" (some 25) (some 55)] =
      some [School.mk "s" (some 25) (some 55)] ∧
    filter_by_drive_time (fun _ _ => 10) (25, 55) 19 [School.mk "s" (some 25) (some 55)] =
      some [] :=
  c5_estimate_threshold (fun _ _ => 10) (25, 55) (School.mk "s" (some 25) (some 55))
    25 55 rfl rfl rfl

/-- C7: with a zone selected, the home coordinate is independent of the
geocoder (the manual address is never geocoded), and when the zone
resolves to a centroid the home coordinate is that centroid swapped to
[lat, lon]. -/
theorem c7_zone_takes_priority (loadWkt : String → Option Geom)
    (g g' : String → Option (ℚ × ℚ)) (df_zones : List ZoneRow)
    (zn addr : String) (hz : zn ≠ "None") :
    home_coords loadWkt g df_zones zn addr = home_coords loadWkt g' df_zones zn addr ∧
    ∀ z c, df_zones.find? (fun w => w.zname == zn) = some z →
      get_centroid loadWkt z.geom = some c →
      home_coords loadWkt g df_zones zn addr = some (c.2, c.1) := by
  constructor
  · simp [home_coords, hz]
  · intro z c hf hc
    simp [home_coords, hz, hf, hc]

/-- Witness for C7 at a concrete zone table and two distinct geocoders. -/
theorem c7_zone_takes_priority_witness :
    (home_coords (fun _ => some (Geom.mk "Polygon" [] (55, 25))) (fun _ => some (1, 1))
        [ZoneRow.mk "Marina" (some "POLYGON((...))")] "Marina" "Springs" =
      home_coords (fun _ => some (Geom.mk "Polygon" [] (55, 25))) (fun _ => none)
        [ZoneRow.mk "Marina" (some "POLYGON((...))")] "Marina" "Springs") ∧
    ∀ z c, [ZoneRow.mk "Marina" (some "POLYGON((...))")].find? (fun w => w.zname == "Marina") = some z →
      get_centroid (fun _ => some (Geom.mk "Polygon" [] (55, 25))) z.geom = some c →
      home_coords (fun _ => some (Geom.mk "Polygon" [] (55, 25))) (fun _ => some (1, 1))
        [ZoneRow.mk "Marina" (some "POLYGON((...))")] "Marina" "Springs" = some (c.2, c.1) :=
  c7_zone_takes_priority (fun _ => some (Geom.mk "Polygon" [] (55, 25))) (fun _ => some (1, 1))
    (fun _ => none) [ZoneRow.mk "Marina" (some "POLYGON((...))")] "Marina" "Springs"
    (by decide)

/-- C10: a selected zone whose boundary yields no centroid leaves the
home coordinate unset, and the manual-address geocoder is never
consulted (the result is the same for every geocoder). -/
theorem c10_centroid_failure_suppresses_geocode (loadWkt : String → Option Geom)
    (g g' : String → Option (ℚ × ℚ)) (df_zones : List ZoneRow)
    (zn addr : String) (z : ZoneRow) (hz : zn ≠ "None")
    (hf : df_zones.find? (fun w => w.zname == zn) = some z)
    (hc : get_centroid loadWkt z.geom = none) :
    home_coords loadWkt g df_zones zn addr = none ∧
    home_coords loadWkt g df_zones zn addr = home_coords loadWkt g' df_zones zn addr := by
  constructor
  · simp [home_coords, hz, hf, hc]
  · simp [home_coords, hz]

/-- Witness for C10 at a concrete zone whose WKT fails to parse. -/
theorem c10_centroid_failure_suppresses_geocode_witness :
    home_coords (fun _ => none) (fun _ => some (1, 1))
      [ZoneRow.mk "Marina" (some "POLYGON((bad")] "Marina" "Springs" = none ∧
    home_coords (fun _ => none) (fun _ => some (1, 1))
        [ZoneRow.mk "Marina" (some "POLYGON((bad")] "Marina" "Springs" =
      home_coords (fun _ => none) (fun _ => none)
        [ZoneRow.mk "Marina" (some "POLYGON((bad")] "Marina" "Springs" :=
  c10_centroid_failure_suppresses_geocode (fun _ => none) (fun _ => some (1, 1))
    (fun _ => none) [ZoneRow.mk "Marina" (some "POLYGON((bad")] "Marina" "Springs"
    (ZoneRow.mk "Marina" (some "POLYGON((bad")) (by decide) (by decide) rfl

/-- Helper: a fold of `max` stays at most 60 when the seed and every
element are. -/
theorem foldl_max_le_60 : ∀ (l : List ℤ) (a : ℤ), (∀ t ∈ l, t ≤ 60) → a ≤ 60 →
    l.foldl max a ≤ 60 := by
  intro l
  induction l with
  | nil => intro a _ ha; simpa using ha
  | cons x xs ih =>
    intro a hl ha
    simp only [List.foldl_cons]
    exact ih (max a x) (fun t ht => hl t (by simp [ht]))
      (max_le ha (hl x (by simp)))

/-- Helper: every element of a successful `mapM` image comes from some
element of the source list. -/
theorem mapM_some_mem {α β : Type} (f : α → Option β) :
    ∀ (l : List α) (l' : List β), l.mapM f = some l' →
      ∀ b ∈ l', ∃ a ∈ l, f a = some b := by
  intro l
  induction l with
  | nil =>
    intro l' hl' b hb
    simp only [List.mapM_nil] at hl'
    cases hl'
    simp at hb
  | cons x xs ih =>
    intro l' hl' b hb
    rw [List.mapM_cons] at hl'
    cases hx : f x with
    | none => rw [hx] at hl'; simp at hl'
    | some y =>
      rw [hx] at hl'
      cases hxs : xs.mapM f with
      | none => rw [hxs] at hl'; simp at hl'
      | some ys =>
        rw [hxs] at hl'
        simp only [Option.bind_some, Option.bind_eq_bind] at hl'
        have : y :: ys = l' := by simpa using hl'
        subst this
        rcases List.mem_cons.mp hb with h1 | h2
        · exact ⟨x, by simp, by rw [hx, h1]⟩
        · obtain ⟨a, ha, hfa⟩ := ih ys hxs b h2
          exact ⟨a, by simp [ha], hfa⟩

/-- C1 counterexample: a record with a null longitude but a non-null
latitude does not receive the sentinel distance — only the latitude is
guarded in the source, so the record reaches the external distance call,
which fails on the non-finite coordinate; no filtered result is produced
for a frame containing such a record. -/
theorem c1_counterexample :
    est_drive_time (fun _ _ => 0) (25, 55) (School.mk "s" (some 25) none) ≠ some 999 ∧
    filter_by_drive_time (fun _ _ => 0) (25, 55) 30 [School.mk "s" (some 25) none] = none := by
  constructor
  · simp [est_drive_time]
  · simp [filter_by_drive_time, List.mapM, List.mapM.loop, est_drive_time]

/-- C1 (amended): with the proximity filter active, a record with a null
latitude receives the sentinel distance 999 and, the selected tiers all
lying in the fixed choice set, no record with a null latitude or a null
longitude ever appears in a produced filtered result. -/
theorem c1_null_coordinate_never_matched (dist : ℚ × ℚ → ℚ × ℚ → ℚ)
    (home : ℚ × ℚ) (tiers : List ℤ)
    (hsub : ∀ t ∈ tiers, t ∈ ([15, 30, 45, 60] : List ℤ))
    (schools res : List School)
    (hres : filter_by_drive_time dist home (max_minutes tiers) schools = some res) :
    (∀ s : School, s.lat = none → est_drive_time dist home s = some 999) ∧
    ∀ x ∈ res, x.lat ≠ none ∧ x.lon ≠ none := by
  have hmax : max_minutes tiers ≤ 60 := by
    refine foldl_max_le_60 tiers 0 ?_ (by norm_num)
    intro t ht
    have h := hsub t ht
    simp only [List.mem_cons, List.not_mem_nil, or_false] at h
    rcases h with h | h | h | h <;> omega
  constructor
  · intro s hs
    simp [est_drive_time, hs]
  · intro x hx
    unfold filter_by_drive_time at hres
    cases hm : schools.mapM
        (fun s => (est_drive_time dist home s).map (fun e => (s, e))) with
    | none => rw [hm] at hres; cases hres
    | some withEst =>
      rw [hm] at hres
      have hresEq : (withEst.filter
          (fun p => p.2 ≤ ((max_minutes tiers : ℤ) : ℚ))).map (fun p => p.1) = res := by
        simpa using hres
      obtain ⟨p, hpmem, hpx⟩ := List.mem_map.mp (hresEq ▸ hx)
      have hpfilter := List.mem_filter.mp hpmem
      have hple : p.2 ≤ ((max_minutes tiers : ℤ) : ℚ) :=
        of_decide_eq_true hpfilter.2
      obtain ⟨a, _, hfa⟩ := mapM_some_mem _ schools withEst hm p hpfilter.1
      have hax : a = p.1 ∧ est_drive_time dist home a = some p.2 := by
        cases he : est_drive_time dist home a with
        | none => rw [he] at hfa; cases hfa
        | some e =>
          rw [he] at hfa
          simp only [Option.map_some'] at hfa
          have hpe : (a, e) = p := Option.some.inj hfa
          refine ⟨?_, ?_⟩
          · have := congrArg Prod.fst hpe
            simpa using this
          · rw [← hpe]
      have hest : est_drive_time dist home x = some p.2 := by
        rw [← hpx, ← hax.1]; exact hax.2
      constructor
      · intro hlat
        have h999 : est_drive_time dist home x = some 999 := by
          simp [est_drive_time, hlat]
        rw [hest] at h999
        have : (p.2 : ℚ) = 999 := by simpa using h999
        have hle60 : ((max_minutes tiers : ℤ) : ℚ) ≤ 60 := by exact_mod_cast hmax
        rw [this] at hple
        have : (999 : ℚ) ≤ 60 := le_trans hple hle60
        norm_num at this
      · intro hlon
        cases hlat : x.lat with
        | none =>
          have h999 : est_drive_time dist home x = some 999 := by
            simp [est_drive_time, hlat]
          rw [hest] at h999
          have : (p.2 : ℚ) = 999 := by simpa using h999
          have hle60 : ((max_minutes tiers : ℤ) : ℚ) ≤ 60 := by exact_mod_cast hmax
          rw [this] at hple
          have : (999 : ℚ) ≤ 60 := le_trans hple hle60
          norm_num at this
        | some la =>
          have : est_drive_time dist home x = none := by
            simp [est_drive_time, hlat, hlon]
          rw [hest] at this
          cases this

/-- Witness for the amended C1 on a concrete two-record frame. -/
theorem c1_null_coordinate_never_matched_witness :
    ((∀ s : School, s.lat = none →
        est_drive_time (fun _ _ => 5) (25, 55) s = some 999) ∧
      ∀ x ∈ [School.mk "b" (some 25) (some 55)],
        x.lat ≠ none ∧ x.lon ≠ none) :=
  c1_null_coordinate_never_matched (fun _ _ => 5) (25, 55) [15, 30] (by decide)
    [School.mk "a" none (some 55), School.mk "b" (some 25) (some 55)]
    [School.mk "b" (some 25) (some 55)]
    (by norm_num [filter_by_drive_time, List.mapM, List.mapM.loop, est_drive_time,
      max_minutes, List.foldl])

/-- Helper: `closeRing` succeeds exactly on a non-empty point list. -/
theorem closeRing_isSome (pts : List APIPoint) :
    (closeRing pts).isSome ↔ pts ≠ [] := by
  cases pts with
  | nil => simp [closeRing]
  | cons p rest =>
    simp only [closeRing, List.map_cons]
    split <;> simp

/-- Helper: on a non-empty point list, `closeRing` produces a non-empty
ring whose first and last elements agree. -/
theorem closeRing_closed (pts : List APIPoint) (h : pts ≠ []) :
    ∃ r, closeRing pts = some r ∧ r ≠ [] ∧ r.head? = r.getLast? := by
  cases pts with
  | nil => exact absurd rfl h
  | cons p rest =>
    simp only [closeRing, List.map_cons]
    by_cases hlast :
        (toLonLat p :: rest.map toLonLat).getLast (List.cons_ne_nil _ _) = toLonLat p
    · refine ⟨toLonLat p :: rest.map toLonLat, by simp [hlast], by simp, ?_⟩
      rw [List.getLast?_eq_getLast (toLonLat p :: rest.map toLonLat) (List.cons_ne_nil _ _),
        hlast]
      simp
    · refine ⟨(toLonLat p :: rest.map toLonLat) ++ [toLonLat p], by simp [hlast], by simp, ?_⟩
      rw [List.getLast?_concat]
      simp

/-- Helper: mapping `closeRing` over a list of non-empty holes succeeds
and every produced ring is non-empty and closed. -/
theorem mapM_closeRing_closed : ∀ (holes : List (List APIPoint)),
    (∀ h ∈ holes, h ≠ []) →
    ∃ out, holes.mapM closeRing = some out ∧
      ∀ r ∈ out, r ≠ [] ∧ r.head? = r.getLast? := by
  intro holes
  induction holes with
  | nil => intro _; exact ⟨[], rfl, by simp⟩
  | cons h t ih =>
    intro hall
    obtain ⟨r, hr, hrne, hrc⟩ := closeRing_closed h (hall h (by simp))
    obtain ⟨out, hout, hcl⟩ := ih (fun x hx => hall x (by simp [hx]))
    refine ⟨r :: out, ?_, ?_⟩
    · rw [List.mapM_cons, hr, hout]; rfl
    · intro x hx
      rcases List.mem_cons.mp hx with h1 | h2
      · subst h1; exact ⟨hrne, hrc⟩
      · exact hcl x h2

/-- Helper: when the converted ring's first and last points differ,
`closeRing` appends a duplicate of the first point. -/
theorem closeRing_append_of_ne (pts : List APIPoint) (q : ℚ × ℚ)
    (qs : List (ℚ × ℚ)) (hmap : pts.map toLonLat = q :: qs)
    (hne : (q :: qs).getLast (List.cons_ne_nil q qs) ≠ q) :
    closeRing pts = some ((q :: qs) ++ [q]) := by
  cases pts with
  | nil => simp at hmap
  | cons p rest =>
    simp only [List.map_cons] at hmap
    obtain ⟨h1, h2⟩ := List.cons.inj hmap
    subst h1
    subst h2
    simp only [closeRing, List.map_cons]
    rw [if_neg hne]

/-- C3: for a shape of a successful routing response (non-empty shell,
non-empty listed holes), processing succeeds and every ring of the
produced multi-polygon — the shell and each hole — is explicitly closed
(its first point equals its last point); and whenever a converted ring's
first and last points differ, a duplicate of the first point is
appended. -/
theorem c3_every_output_ring_closed (s : IsoShape) (hshell : s.shell ≠ [])
    (hholes : ∀ h ∈ s.holes, h ≠ []) :
    (∃ rings, processShape s = some rings ∧
      ∀ r ∈ rings, r ≠ [] ∧ r.head? = r.getLast?) ∧
    ∀ (pts : List APIPoint) (q : ℚ × ℚ) (qs : List (ℚ × ℚ)),
      pts.map toLonLat = q :: qs →
      (q :: qs).getLast (List.cons_ne_nil q qs) ≠ q →
      closeRing pts = some ((q :: qs) ++ [q]) := by
  constructor
  · obtain ⟨shell, hsh, hshne, hshc⟩ := closeRing_closed s.shell hshell
    obtain ⟨hs, hhs, hhc⟩ := mapM_closeRing_closed s.holes hholes
    refine ⟨shell :: hs, ?_, ?_⟩
    · simp only [processShape, hsh, hhs]
    · intro r hr
      rcases List.mem_cons.mp hr with h1 | h2
      · subst h1; exact ⟨hshne, hshc⟩
      · exact hhc r h2
  · exact closeRing_append_of_ne

/-- Witness for C3 at a concrete open shell and a concrete open hole. -/
theorem c3_every_output_ring_closed_witness :
    (∃ rings,
      processShape (IsoShape.mk [APIPoint.mk 0 0, APIPoint.mk 1 1]
          [[APIPoint.mk 2 2, APIPoint.mk 3 3]]) = some rings ∧
      ∀ r ∈ rings, r ≠ [] ∧ r.head? = r.getLast?) ∧
    ∀ (pts : List APIPoint) (q : ℚ × ℚ) (qs : List (ℚ × ℚ)),
      pts.map toLonLat = q :: qs →
      (q :: qs).getLast (List.cons_ne_nil q qs) ≠ q →
      closeRing pts = some ((q :: qs) ++ [q]) :=
  c3_every_output_ring_closed
    (IsoShape.mk [APIPoint.mk 0 0, APIPoint.mk 1 1] [[APIPoint.mk 2 2, APIPoint.mk 3 3]])
    (by decide) (by decide)

/-- Helper: mapping `closeRing` over holes succeeds exactly when every
listed hole is non-empty. -/
theorem mapM_closeRing_isSome : ∀ (holes : List (List APIPoint)),
    (holes.mapM closeRing).isSome ↔ ∀ h ∈ holes, h ≠ [] := by
  intro holes
  induction holes with
  | nil => simp [List.mapM, List.mapM.loop]
  | cons h t ih =>
    rw [List.mapM_cons]
    constructor
    · intro hsome x hx
      rcases List.mem_cons.mp hx with h1 | h2
      · subst h1
        rw [← closeRing_isSome]
        cases hch : closeRing x with
        | none => rw [hch] at hsome; simp at hsome
        | some r => simp
      · cases hch : closeRing h with
        | none => rw [hch] at hsome; simp at hsome
        | some r =>
          rw [hch] at hsome
          cases hmt : t.mapM closeRing with
          | none => rw [hmt] at hsome; simp at hsome
          | some out =>
            have : (t.mapM closeRing).isSome := by rw [hmt]; rfl
            exact (ih.mp this) x h2
    · intro hall
      obtain ⟨r, hr, _, _⟩ := closeRing_closed h (hall h (by simp))
      have ht : (t.mapM closeRing).isSome := ih.mpr (fun x hx => hall x (by simp [hx]))
      obtain ⟨out, hout⟩ := Option.isSome_iff_exists.mp ht
      rw [hr, hout]
      rfl

/-- C9: processing a response shape is total exactly under the
precondition that the shell and every listed hole are non-empty point
lists; without it the unguarded first-element access fails (the `none`
branch is reached). -/
theorem c9_processShape_total_iff (s : IsoShape) :
    (processShape s).isSome ↔ (s.shell ≠ [] ∧ ∀ h ∈ s.holes, h ≠ []) := by
  unfold processShape
  cases hcs : closeRing s.shell with
  | none =>
    have hsh : ¬s.shell ≠ [] := by
      rw [← closeRing_isSome, hcs]
      simp
    simp [hsh]
  | some shell =>
    have hsh : s.shell ≠ [] := by
      rw [← closeRing_isSome, hcs]
      rfl
    cases hm : s.holes.mapM closeRing with
    | none =>
      have hh : ¬∀ h ∈ s.holes, h ≠ [] := by
        rw [← mapM_closeRing_isSome, hm]
        simp
      simp [hh]
    | some out =>
      have hh : ∀ h ∈ s.holes, h ≠ [] := by
        rw [← mapM_closeRing_isSome, hm]
        rfl
      simp [hsh]
      exact hh

/-- Helper: the descending sort really is sorted for `ge`. -/
theorem sorted_sortDesc (l : List ℤ) :
    List.Sorted (fun a b : ℤ => b ≤ a) (sortDesc l) := by
  haveI : IsTotal ℤ (fun a b : ℤ => b ≤ a) := ⟨fun a b => le_total b a⟩
  haveI : IsTrans ℤ (fun a b : ℤ => b ≤ a) := ⟨fun _ _ _ h1 h2 => le_trans h2 h1⟩
  exact List.sorted_insertionSort _ l

/-- Helper: the descending sort is a permutation of its input. -/
theorem perm_sortDesc (l : List ℤ) : (sortDesc l).Perm l :=
  List.perm_insertionSort _ l

/-- Helper: the loop of `fetch_isochrones`, when every processed tier
succeeds with processable shapes, yields one feature per tier in order,
each tagged with its tier, the feature at loop index `i + j` colored
with palette entry `(i + j) mod 3`. -/
theorem fetchLoop_spec (getIso : ℤ → Option (List IsoShape)) :
    ∀ (tiers : List ℤ) (i : ℕ),
      (∀ dt ∈ tiers, ∃ shapes, getIso dt = some shapes ∧ shapes ≠ [] ∧
        (shapes.mapM processShape).isSome) →
      ∃ feats, fetchLoop getIso i tiers = some feats ∧
        feats.map Feature.drive_time = tiers ∧
        ∀ j (hj : j < feats.length),
          (feats.get ⟨j, hj⟩).color = colors.getD ((i + j) % colors.length) (0, 0, 0) := by
  intro tiers
  induction tiers with
  | nil =>
    intro i _
    exact ⟨[], rfl, rfl, fun j hj => by simp at hj⟩
  | cons dt rest ih =>
    intro i hall
    obtain ⟨shapes, hg, hne, hms⟩ := hall dt (by simp)
    obtain ⟨geoms, hgeoms⟩ := Option.isSome_iff_exists.mp hms
    obtain ⟨feats, hf, hmap, hcol⟩ := ih (i + 1) (fun t ht => hall t (by simp [ht]))
    have hemp : shapes.isEmpty = false := by
      cases shapes with
      | nil => exact absurd rfl hne
      | cons a l => rfl
    refine ⟨{ coordinates := geoms, drive_time := dt,
              color := colors.getD (i % colors.length) (0, 0, 0) } :: feats, ?_, ?_, ?_⟩
    · simp only [fetchLoop, hg, hemp, hgeoms, hf]
      rfl
    · simp only [List.map_cons, hmap]
    · intro j hj
      cases j with
      | zero => simp
      | succ k =>
        have hk : k < feats.length := by simpa using hj
        have hcase := hcol k hk
        have hidx : i + 1 + k = i + (k + 1) := by omega
        rw [hidx] at hcase
        simpa using hcase

/-- C4: tiers are requested in descending numeric order (a sorted
permutation of the selection), every produced feature is tagged with its
numeric tier, and the color of the feature produced at 0-based request
position `j` is the fixed 3-color palette entry at index `j mod 3` — a
function of request order only. -/
theorem c4_color_by_request_order (getIso : ℤ → Option (List IsoShape))
    (drive_times : List ℤ)
    (hok : ∀ dt ∈ sortDesc drive_times, ∃ shapes, getIso dt = some shapes ∧
      shapes ≠ [] ∧ (shapes.mapM processShape).isSome) :
    List.Sorted (fun a b : ℤ => b ≤ a) (sortDesc drive_times) ∧
    (sortDesc drive_times).Perm drive_times ∧
    ∃ feats, fetch_isochrones getIso drive_times = some feats ∧
      feats.map Feature.drive_time = sortDesc drive_times ∧
      ∀ j (hj : j < feats.length),
        (feats.get ⟨j, hj⟩).color = colors.getD (j % colors.length) (0, 0, 0) := by
  refine ⟨sorted_sortDesc drive_times, perm_sortDesc drive_times, ?_⟩
  obtain ⟨feats, hf, hmap, hcol⟩ := fetchLoop_spec getIso (sortDesc drive_times) 0 hok
  refine ⟨feats, hf, hmap, ?_⟩
  intro j hj
  simpa using hcol j hj

/-- Witness for C4: a single tier 45 requested first receives palette
entry 0, independent of its numeric value. -/
theorem c4_color_by_request_order_witness :
    List.Sorted (fun a b : ℤ => b ≤ a) (sortDesc [45]) ∧
    (sortDesc [45]).Perm [45] ∧
    ∃ feats,
      fetch_isochrones (fun _ => some [IsoShape.mk [APIPoint.mk 0 0] []]) [45] =
        some feats ∧
      feats.map Feature.drive_time = sortDesc [45] ∧
      ∀ j (hj : j < feats.length),
        (feats.get ⟨j, hj⟩).color = colors.getD (j % colors.length) (0, 0, 0) :=
  c4_color_by_request_order (fun _ => some [IsoShape.mk [APIPoint.mk 0 0] []]) [45]
    (fun dt _ => ⟨[IsoShape.mk [APIPoint.mk 0 0] []], rfl, by decide, by decide⟩)

end DxbSchools
